import Mathlib

/-!
Verification development for the note-transcription pipeline in
`music_helper.py` (repository MAYA): the note-text codec
(`update_musicxml`), the textual summary (`get_notes_from_xml`), the
visual renderer (`generate_visual_sheet`) and the playback engine
(`play_violin_mp3_library`).

Modelling conventions:
* Python strings are `List Char` internally (wrapped in `String` at the
  interfaces); `str.split(sep)` with a one-character separator is
  `splitOnChar`, `str.strip()` is `pyStripL` over the ASCII whitespace
  characters Python strips, `str.lower()` is an ASCII `toLowerL`.
* Python floats are modelled as `ℚ`; `float(s)` is `pyFloat`, covering
  finite decimal literals with optional sign and exponent (the
  `inf`/`nan` names and digit-group underscores are outside the model).
* Exceptions become `Except` values; the exception texts that the code
  embeds into its returned strings are reproduced in `errMsg`
  (CPython unpacking / float-conversion messages, the notation
  library pitch/accidental messages).
* The external music library (music21) is modelled on the fragment the
  code uses: pitch-name parsing (`parsePitchName`, mirroring the
  `Pitch.name` setter: digits are extracted as the octave, the first
  remaining character is the step letter, the rest an accidental
  string), `nameWithOctave`, `diatonicNoteNum` (`dnn`),
  `getLowerEnharmonic` (transposition one diatonic step down to the
  enharmonically equal spelling, e.g. C#3 ↦ B##2), and duration
  objects that accept any quarter-length value (zero-length durations
  are legal in the library object model).
* Filesystem and audio effects become explicit parameters: predicates
  for asset existence, flags for document existence, and accumulated
  sleep time/message strings in the playback outcome.
-/

/-
The rational operations of the standard library are irreducible by
default; restore reducibility locally so that closed statements about
the model evaluate by `decide`/`rfl`.
-/
attribute [local semireducible] Rat.add Rat.sub Rat.mul Rat.inv Rat.ofScientific

/-- A single quote character (U+0027), used when reproducing Python
exception texts. -/
def quoteCh : String := String.singleton (Char.ofNat 39)

/-- The ASCII whitespace characters stripped by Python `str.strip()`. -/
def pyWs (c : Char) : Bool :=
  c = ' ' || c = '\t' || c = '\n' || c = '\r' || c = Char.ofNat 11 || c = Char.ofNat 12

/-- Python `str.strip()` on the character list. -/
def pyStripL (l : List Char) : List Char :=
  ((l.dropWhile pyWs).reverse.dropWhile pyWs).reverse

/-- ASCII `str.lower()`. -/
def toLowerL (l : List Char) : List Char :=
  l.map Char.toLower

/-- Python `str.split(sep)` for a one-character separator: splits at
every occurrence, yielding `[whole]` when the separator is absent and
`[[]]` on the empty string. -/
def splitOnChar (sep : Char) : List Char → List (List Char)
  | [] => [[]]
  | c :: rest =>
    match splitOnChar sep rest with
    | [] => [[]]
    | cur :: parts => if c = sep then [] :: cur :: parts else (c :: cur) :: parts

/-- Numeric value of a digit list (Python `int` on a digit string). -/
def natOfDigits (l : List Char) : Nat :=
  l.foldl (fun acc c => 10 * acc + (c.toNat - 48)) 0

/-- `pat` occurs as a contiguous substring of `l`. -/
def occursL (pat l : List Char) : Bool :=
  l.tails.any (fun t => pat.isPrefixOf t)

/-- Number of positions of `l` at which `pat` starts. -/
def countOccL (pat l : List Char) : Nat :=
  (l.tails.filter (fun t => pat.isPrefixOf t)).length

/-- A pitch of the notation library: step letter, chromatic alteration
(sharps positive, flats negative; 0 covers both no accidental and an
explicit natural, which print identically and are both non-"sharp"),
and optional octave (`none` = implicit octave 4). -/
structure MPitch where
  step : Char
  alter : Int
  octave : Option Int
deriving DecidableEq

/-- A decoded note: pitch plus quarter-length. -/
structure MNote where
  pitch : MPitch
  ql : ℚ
deriving DecidableEq

/-- A note of a parsed score as the renderer/playback/summary see it:
pitch, duration-type name (e.g. "quarter") and quarter-length. -/
structure SNote where
  pitch : MPitch
  durType : String
  ql : ℚ
deriving DecidableEq

/-- An element of `score.flatten().notes`: a plain note or a chord
(simultaneous pitches with a common duration type). -/
inductive MEvent where
  | note (n : SNote)
  | chord (ps : List MPitch) (durType : String)
deriving DecidableEq

/-- The seven step letters. -/
def stepLetters : List Char := ['A', 'B', 'C', 'D', 'E', 'F', 'G']

/-- Semitone position of a step letter within the octave. -/
def stepPc (c : Char) : Int :=
  if c = 'C' then 0 else if c = 'D' then 2 else if c = 'E' then 4
  else if c = 'F' then 5 else if c = 'G' then 7 else if c = 'A' then 9
  else 11

/-- Diatonic index of a step letter (C = 1 … B = 7). -/
def stepIdx (c : Char) : Int :=
  if c = 'C' then 1 else if c = 'D' then 2 else if c = 'E' then 3
  else if c = 'F' then 4 else if c = 'G' then 5 else if c = 'A' then 6
  else 7

/-- The step letter one diatonic position below. -/
def stepBelow (c : Char) : Char :=
  if c = 'C' then 'B' else if c = 'D' then 'C' else if c = 'E' then 'D'
  else if c = 'F' then 'E' else if c = 'G' then 'F' else if c = 'A' then 'G'
  else 'A'

/-- `diatonicNoteNum` of the library: 7 × implicit octave + step index,
so that B4 = 35. -/
def dnn (p : MPitch) : Int :=
  7 * (p.octave.getD 4) + stepIdx p.step

/-- Accidental modifier string of the library (`#`-runs for sharps,
`-`-runs for flats, empty for natural/none). -/
def accModifier (a : Int) : List Char :=
  if 0 < a then List.replicate a.toNat '#' else List.replicate (-a).toNat '-'

/-- `Pitch.nameWithOctave`: step letter, accidental modifier, octave
digits (absent octave prints nothing). -/
def nameWithOctave (p : MPitch) : List Char :=
  p.step :: accModifier p.alter ++
    (match p.octave with
     | some o => (toString o).data
     | none => [])

/-- `Pitch.getLowerEnharmonic()`: the enharmonically equal spelling one
diatonic step below (transposition by a descending diminished second),
e.g. C#3 ↦ B##2, G#4 ↦ F###4.  A `none` octave is preserved. -/
def getLowerEnharmonic (p : MPitch) : MPitch :=
  let oct : Int := p.octave.getD 4
  let s2 := stepBelow p.step
  let oct2 : Int := if p.step = 'C' then oct - 1 else oct
  let alter2 := (12 * (oct + 1) + stepPc p.step + p.alter) -
    (12 * (oct2 + 1) + stepPc s2)
  ⟨s2, alter2, p.octave.map (fun _ => oct2)⟩

/-- Pitch errors raised by the library when parsing a pitch name. -/
inductive PitchErr where
  | nameEmpty
  | badStep (c : Char)
  | badAcc (l : List Char)
deriving DecidableEq

/-- The accidental vocabulary fragment used by pitch-name parsing
(the library lowercases the accidental substring before matching;
microtonal names are outside the model). -/
def parseAccStr (l : List Char) : Option Int :=
  if l = "#".data then some 1
  else if l = "##".data then some 2
  else if l = "###".data then some 3
  else if l = "####".data then some 4
  else if l = "-".data then some (-1)
  else if l = "--".data then some (-2)
  else if l = "---".data then some (-3)
  else if l = "----".data then some (-4)
  else if l = "b".data then some (-1)
  else if l = "bb".data then some (-2)
  else if l = "x".data then some 2
  else if l = "n".data then some 0
  else if l = "natural".data then some 0
  else if l = "sharp".data then some 1
  else if l = "flat".data then some (-1)
  else if l = "double-sharp".data then some 2
  else if l = "double-flat".data then some (-2)
  else none

/-- `music21.note.Note(pitchName)` / the `Pitch.name` setter: strip the
string, extract all digit characters (in order) as the octave, take the
first remaining character (uppercased) as the step letter and the rest
as an accidental string. -/
def parsePitchName (l0 : List Char) : Except PitchErr MPitch :=
  let l := pyStripL l0
  let octF := l.filter Char.isDigit
  let rest := l.filter (fun c => !c.isDigit)
  match rest with
  | [] => .error .nameEmpty
  | st :: accChars =>
    if st.toUpper ∈ stepLetters then
      let oct : Option Int := if octF.isEmpty then none else some (natOfDigits octF)
      match accChars with
      | [] => .ok ⟨st.toUpper, 0, oct⟩
      | _ =>
        match parseAccStr (toLowerL accChars) with
        | some a => .ok ⟨st.toUpper, a, oct⟩
        | none => .error (.badAcc accChars)
    else .error (.badStep st)

/-- The fixed duration-name table of `update_musicxml`. -/
def duration_map (key : List Char) : Option ℚ :=
  if key = "16th".data then some (1/4)
  else if key = "eighth".data then some (1/2)
  else if key = "quarter".data then some 1
  else if key = "half".data then some 2
  else if key = "whole".data then some 4
  else none

/-- Mantissa of a float literal — `d+`, `d+.d*` or `.d+` — as a
numerator/denominator pair. -/
def pyFloatParts (m : List Char) : Option (Int × Nat) :=
  match splitOnChar '.' m with
  | [d] =>
    if d ≠ [] ∧ d.all Char.isDigit then some ((natOfDigits d : Int), 1) else none
  | [i, f] =>
    if (i ++ f) ≠ [] ∧ (i ++ f).all Char.isDigit then
      some ((natOfDigits i * 10 ^ f.length + natOfDigits f : Nat), 10 ^ f.length)
    else none
  | _ => none

/-- Optional sign prefix, as an integer unit. -/
def pySign : List Char → (Int × List Char)
  | '+' :: rest => (1, rest)
  | '-' :: rest => (-1, rest)
  | l => (1, l)

/-- Exponent part of a float literal: `[sign] d+`. -/
def pyFloatExp (l : List Char) : Option Int :=
  match l with
  | '+' :: d => if d ≠ [] ∧ d.all Char.isDigit then some (natOfDigits d) else none
  | '-' :: d => if d ≠ [] ∧ d.all Char.isDigit then some (-(natOfDigits d : Int)) else none
  | d => if d ≠ [] ∧ d.all Char.isDigit then some (natOfDigits d) else none

/-- Python `float(s)` on finite decimal literals: strip whitespace,
optional sign, mantissa, optional `e`-exponent. -/
def pyFloat (l0 : List Char) : Option ℚ :=
  let l := toLowerL (pyStripL l0)
  let (sgn, l2) := pySign l
  match splitOnChar 'e' l2 with
  | [m] => (pyFloatParts m).map (fun nd => mkRat (sgn * nd.1) nd.2)
  | [m, ex] =>
    match pyFloatParts m, pyFloatExp ex with
    | some nd, some ev =>
      if 0 ≤ ev then some (mkRat (sgn * nd.1 * (10 : Int) ^ ev.toNat) nd.2)
      else some (mkRat (sgn * nd.1) (nd.2 * 10 ^ (-ev).toNat))
    | _, _ => none
  | _ => none

/-- The exceptions that `update_musicxml` can catch while parsing one
`Pitch:Duration` entry. -/
inductive PyErr where
  | unpackFew (got : Nat)
  | unpackMany
  | floatErr (d : List Char)
  | pitchErr (pe : PitchErr)
deriving DecidableEq

/-- Text of a pitch/accidental exception (the library embeds the
offending substring). -/
def pitchErrMsg : PitchErr → String
  | .nameEmpty => "Cannot make a name out of " ++ quoteCh ++ quoteCh
  | .badStep c => "Cannot make a step out of " ++ quoteCh ++ String.singleton c.toUpper ++ quoteCh
  | .badAcc l => quoteCh ++ String.mk l ++ quoteCh ++ " is not a supported accidental type"

/-- `str(e)` of the caught exception, as interpolated by
`update_musicxml` into its returned error string. -/
def errMsg : PyErr → String
  | .unpackFew got =>
    "not enough values to unpack (expected 2, got " ++ toString got ++ ")"
  | .unpackMany => "too many values to unpack (expected 2)"
  | .floatErr d => "could not convert string to float: " ++ quoteCh ++ String.mk d ++ quoteCh
  | .pitchErr pe => pitchErrMsg pe

/-- Duration resolution of one entry: the fixed name table on the
stripped, lowercased token, otherwise `float(dur_val)`. -/
def durOf (d : List Char) : Except PyErr ℚ :=
  match duration_map (toLowerL (pyStripL d)) with
  | some v => .ok v
  | none =>
    match pyFloat d with
    | some v => .ok v
    | none => .error (.floatErr d)

/-- Processing of one already-split entry: resolve the duration (the
`float` call precedes the `Note` construction in the source), then
build the note from the pitch name. -/
def parsePD (p d : List Char) : Except PyErr MNote :=
  match durOf d with
  | .error err => .error err
  | .ok v =>
    match parsePitchName p with
    | .error pe => .error (.pitchErr pe)
    | .ok pit => .ok ⟨pit, v⟩

/-- One loop iteration of `update_musicxml`:
`pitch_name, dur_val = entry.split(":")` followed by duration and
pitch resolution. -/
def parseEntry (e : List Char) : Except PyErr MNote :=
  match splitOnChar ':' e with
  | [p, d] => parsePD p d
  | [_] => .error (.unpackFew 1)
  | [] => .error (.unpackFew 0)
  | _ => .error .unpackMany

/-- The whole parse loop: entries processed left to right, aborting at
the first exception (notes appended so far are discarded with the
stream). -/
def parseEntries : List (List Char) → Except PyErr (List MNote)
  | [] => .ok []
  | e :: rest =>
    match parseEntry e with
    | .error err => .error err
    | .ok n =>
      match parseEntries rest with
      | .error err => .error err
      | .ok ns => .ok (n :: ns)

/-- `corrected_notes_text.split(",")` with each entry stripped. -/
def entriesOf (text : String) : List (List Char) :=
  (splitOnChar ',' text.data).map pyStripL

/-- The decode portion of `update_musicxml`: the note sequence built by
the parse loop, or the first exception. -/
def decodeLoop (text : String) : Except PyErr (List MNote) :=
  parseEntries (entriesOf text)

/-- The error string returned by `update_musicxml` when the loop (or
anything in the `try` block) raises. -/
def errWrap (e : PyErr) : String :=
  "Error parsing notes: " ++ errMsg e ++ ". Please use format " ++ quoteCh ++
    "Pitch:Duration" ++ quoteCh ++ "."

/-- `update_musicxml(xml_path, corrected_notes_text)`: on success the
built sequence is written over the document at the path (the notation
library serializer is modelled as total on in-memory sequences) and a
summary of the written document is returned; `.ok` carries the
committed sequence.  On any exception nothing has been written and the
descriptive string is returned, not raised. -/
def update_musicxml (text : String) : Except String (List MNote) :=
  match decodeLoop text with
  | .ok ns => .ok ns
  | .error err => .error (errWrap err)

/-- Token emitted by `get_notes_from_xml` for one event of
`score.flatten().notes`: notes yield `nameWithOctave:durationType`; for
a chord the source evaluates `n.pitches + ":" + n.duration.type`, and
adding a string to the pitch tuple raises `TypeError` with CPython's
concatenation message. -/
def noteToken : MEvent → Except String String
  | .note n => .ok (String.mk (nameWithOctave n.pitch) ++ ":" ++ n.durType)
  | .chord _ _ => .error "TypeError: can only concatenate tuple (not \x22str\x22) to tuple"

/-- Left-to-right token collection, stopping at the first raised
exception. -/
def noteTokens : List MEvent → Except String (List String)
  | [] => .ok []
  | ev :: rest =>
    match noteToken ev with
    | .error m => .error m
    | .ok t =>
      match noteTokens rest with
      | .error m => .error m
      | .ok ts => .ok (t :: ts)

/-- `get_notes_from_xml(file_path)` over the parsed document events;
`pathExists` models `os.path.exists`.  `.error` is an exception
escaping the function (it has no handler of its own). -/
def get_notes_from_xml (path : String) (pathExists : Bool) (evs : List MEvent) :
    Except String String :=
  if pathExists then
    match noteTokens evs with
    | .error m => .error m
    | .ok toks =>
      .ok ("🎉 Found the payload: " ++ path ++ "\n--- 🎼 NOTES DETECTED ---" ++ ":" ++
        String.intercalate ", " toks)
  else
    .ok ("🤔 The tool finished, but I can" ++ quoteCh ++ "t find " ++ quoteCh ++ path ++
      quoteCh ++ " in the folder.")

/-- Python `int()` truncation toward zero on a rational. -/
def pyInt (q : ℚ) : Int :=
  Int.tdiv q.num q.den

/-- Renderer state of `generate_visual_sheet`: horizontal cursor,
current line vertical offset, running duration accumulator, number of
line wraps so far, vertical offsets at which staff tiles have been
composited, and the composited glyphs `(assetName, x, y)`. -/
structure RState where
  x : ℚ
  yOff : Int
  acc : ℚ
  wraps : Nat
  tiles : List Int
  glyphs : List (String × Int × Int)
deriving DecidableEq

/-- Initial renderer state: cursor at 100, first staff tile composited
at vertical offset 0. -/
def rInit : RState :=
  ⟨100, 0, 0, 0, [0], []⟩

/-- The glyph filename the renderer asks for first: the reversed stem
variant when `diatonicNoteNum ≥ 35`, else the plain variant, keyed by
the duration-type name. -/
def attemptedSticker (n : SNote) : String :=
  if 35 ≤ dnn n.pitch then n.durType ++ "_rev.png" else n.durType ++ ".png"

/-- Opening the glyph asset: on `FileNotFoundError` the code falls back
to the plain `durationType.png`; a failure of that second open
propagates.  `lib` is file existence in the visual library folder. -/
def openSticker (lib : String → Bool) (n : SNote) : Except String String :=
  if lib (attemptedSticker n) then .ok (attemptedSticker n)
  else if lib (n.durType ++ ".png") then .ok (n.durType ++ ".png")
  else .error ("FileNotFoundError: " ++ n.durType ++ ".png")

/-- The line-wrap check performed before rendering each note: when the
accumulator strictly exceeds 4.0, reset the cursor to 100, advance the
line offset by 500, zero the accumulator and composite a fresh staff
tile at the new offset. -/
def wrapIfNeeded (s : RState) : RState :=
  if 4 < s.acc then
    ⟨100, s.yOff + 500, 0, s.wraps + 1, s.tiles ++ [s.yOff + 500], s.glyphs⟩
  else s

/-- One loop iteration of `generate_visual_sheet`: non-note events are
skipped; for a note, wrap if needed, open the glyph, composite it at
`(int(x_cursor), 544 + y_origin_offset - diatonicNoteNum * 15)`, then
advance the cursor by `quarterLength * 150 * 2` and accumulate the
duration. -/
def renderStep (lib : String → Bool) (s : RState) : MEvent → Except String RState
  | .chord _ _ => .ok s
  | .note n =>
    let s2 := wrapIfNeeded s
    match openSticker lib n with
    | .error m => .error m
    | .ok sticker =>
      .ok ⟨s2.x + n.ql * 300, s2.yOff, s2.acc + n.ql, s2.wraps, s2.tiles,
        s2.glyphs ++ [(sticker, pyInt s2.x, 544 + s2.yOff - dnn n.pitch * 15)]⟩

/-- The renderer loop over the event list. -/
def renderList (lib : String → Bool) (s : RState) : List MEvent → Except String RState
  | [] => .ok s
  | ev :: rest =>
    match renderStep lib s ev with
    | .error m => .error m
    | .ok s2 => renderList lib s2 rest

/-- `generate_visual_sheet(xml_path)` over the parsed events: opens the
staff background (propagating a missing-file error), then runs the
loop from the initial state. -/
def generate_visual_sheet (lib : String → Bool) (evs : List MEvent) :
    Except String RState :=
  if lib "blank_staff.png" then renderList lib rInit evs
  else .error "FileNotFoundError: blank_staff.png"

/-- The staff-tile offsets after `w` wraps: one tile per line, lines
spaced 500 apart starting at 0. -/
def staffTiles (w : Nat) : List Int :=
  (List.range (w + 1)).map (fun i => 500 * (i : Int))

/-- Quarter-length contributed to the accumulated duration by one
event (chords are skipped by the loop). -/
def noteQL : MEvent → ℚ
  | .note n => n.ql
  | .chord _ _ => 0

/-- Total accumulated duration of a rendered/played sequence. -/
def totalNoteQL (evs : List MEvent) : ℚ :=
  (evs.map noteQL).sum

/-- Modelled from the spec sentence of the claim, not from the code:
"exactly one line wrap per 4.0 quarter-unit boundary crossed by the
accumulated duration" — the number of multiples of 4.0 strictly
exceeded by the total, i.e. `⌈total/4⌉ - 1` for positive totals. -/
def specWrapCount (total : ℚ) : Nat :=
  (⌈total / 4⌉ - 1).toNat

/-- The audio-asset filename the playback engine looks up: pitches
whose accidental is exactly "sharp" are respelled through
`getLowerEnharmonic`, then `-` becomes `b` and `.mp3` is appended. -/
def sampleFilename (p : MPitch) : String :=
  let base := if p.alter = 1 then nameWithOctave (getLowerEnharmonic p) else nameWithOctave p
  String.mk (base.map (fun c => if c = '-' then 'b' else c)) ++ ".mp3"

/-- Environment of one playback session: whether the score document
exists, which sample files exist in the asset library, which samples
play without raising, and the text of a playback exception. -/
structure PlayEnv where
  fileExists : Bool
  sampleExists : String → Bool
  soundOk : String → Bool
  errText : String → String

/-- Outcome of a playback session: whether the mixer was initialized
and whether it was quit before returning, the total seconds spent in
`time.sleep`, the number of missing-asset warnings appended, and the
returned message. -/
structure PlayOutcome where
  mixerInit : Bool
  mixerQuit : Bool
  slept : ℚ
  missingCount : Nat
  message : String

/-- Mutable loop state of `play_violin_mp3_library`. -/
structure PlayState where
  slept : ℚ
  missingCount : Nat
  message : String

/-- One loop iteration of `play_violin_mp3_library`: non-note events
are skipped; a present sample logs "Playing", then (inside `try`)
plays and sleeps `quarterLength * 0.6` seconds — an exception there
skips the sleep and logs the error instead; a missing sample logs one
warning and still sleeps `quarterLength * 0.6`. -/
def playStep (env : PlayEnv) (s : PlayState) : MEvent → PlayState
  | .chord _ _ => s
  | .note n =>
    let fn := sampleFilename n.pitch
    if env.sampleExists fn then
      let s2 : PlayState := ⟨s.slept, s.missingCount, s.message ++ "🔊 Playing: " ++ fn⟩
      if env.soundOk fn then
        ⟨s2.slept + n.ql * (3/5), s2.missingCount, s2.message⟩
      else
        ⟨s2.slept, s2.missingCount,
          s2.message ++ "🚨 Error playing " ++ fn ++ ": " ++ env.errText fn⟩
    else
      ⟨s.slept + n.ql * (3/5), s.missingCount + 1,
        s.message ++ "⚠️ Missing from library: " ++ fn⟩

/-- `play_violin_mp3_library(xml_path)`: the mixer is initialized
first; if the document is missing the function returns at once —
without quitting the mixer; otherwise the loop runs over the parsed
events and the mixer is quit before the final message is returned.
The seconds-per-beat constant is 0.6 = 3/5. -/
def play_violin_mp3_library (env : PlayEnv) (xmlPath : String) (evs : List MEvent) :
    PlayOutcome :=
  if env.fileExists then
    let s0 : PlayState :=
      ⟨0, 0, "🎻 Ready! Accessing library: chromatic_samples_library..."⟩
    let s := evs.foldl (playStep env) s0
    ⟨true, true, s.slept, s.missingCount, s.message ++ "✅ Performance finished!"⟩
  else
    ⟨true, false, 0, 0, "🚨 XML file not found: " ++ xmlPath⟩

/-- Missing-asset warnings contributed by one event. -/
def missingOf (env : PlayEnv) : MEvent → Nat
  | .note n => if env.sampleExists (sampleFilename n.pitch) then 0 else 1
  | .chord _ _ => 0

/-- Number of note events whose sample file is absent. -/
def totalMissing (env : PlayEnv) (evs : List MEvent) : Nat :=
  (evs.map (missingOf env)).sum

/-- Playback environment used in the concrete playback example: the
document exists, only `A4.mp3` is in the sample library, and present
samples play without raising. -/
def playEnvEx : PlayEnv :=
  ⟨true, (· == "A4.mp3"), fun _ => true, fun _ => ""⟩

/-- Two-note playback example: a present-asset quarter note A4 and a
missing-asset half note B4. -/
def playEvsEx : List MEvent :=
  [.note ⟨⟨'A', 0, some 4⟩, "quarter", 1⟩, .note ⟨⟨'B', 0, some 4⟩, "half", 2⟩]

/-- A visual library containing every asset. -/
def libAll : String → Bool := fun _ => true

/-- Render example whose accumulated duration is 5.0: a whole note
followed by a quarter note. -/
def wrapEvsEx : List MEvent :=
  [.note ⟨⟨'C', 0, some 4⟩, "whole", 4⟩, .note ⟨⟨'C', 0, some 4⟩, "quarter", 1⟩]

/-- The renderer state `generate_visual_sheet libAll wrapEvsEx` ends
in. -/
def wrapStateEx : RState :=
  ⟨1600, 0, 5, 0, [0], [("whole.png", 100, 109), ("quarter.png", 1300, 109)]⟩

/-- A renderer state whose accumulator (6.0) already exceeds the line
capacity. -/
def wrapStartEx : RState :=
  ⟨100, 0, 6, 0, [0], []⟩

/-- The state reached from `wrapStartEx` by rendering one quarter note
C4: one wrap, then the glyph on the fresh line. -/
def wrapStepEx : RState :=
  ⟨400, 500, 1, 1, [0, 500], [("quarter.png", 100, 609)]⟩

/-- Note used in the glyph-variant example: B4 sits exactly at the
stem-flip threshold (diatonic step 35). -/
def stickerNoteEx : SNote := ⟨⟨'B', 0, some 4⟩, "quarter", 1⟩

/-- A visual library that has only the plain quarter glyph, not the
reversed variant. -/
def stickerLibEx : String → Bool := (· == "quarter.png")

/-- A document whose flattened notes contain one chord. -/
def chordDocEx : List MEvent :=
  [.chord [⟨'C', 0, some 4⟩, ⟨'E', 0, some 4⟩] "quarter"]

/-- Decidable equality on `Except` results, for evaluating the model on
concrete inputs. -/
instance {ε α : Type} [DecidableEq ε] [DecidableEq α] : DecidableEq (Except ε α) :=
  fun x y =>
    match x, y with
    | .ok a, .ok b =>
      if h : a = b then isTrue (by rw [h]) else
        isFalse (fun hc => h (by injection hc))
    | .error a, .error b =>
      if h : a = b then isTrue (by rw [h]) else
        isFalse (fun hc => h (by injection hc))
    | .ok _, .error _ => isFalse (fun hc => by injection hc)
    | .error _, .ok _ => isFalse (fun hc => by injection hc)

lemma str_data_append (a b : String) : (a ++ b).data = a.data ++ b.data := rfl

lemma isPrefixOf_append_self (l t : List Char) : l.isPrefixOf (l ++ t) = true := by
  induction l with
  | nil => simp [List.isPrefixOf]
  | cons c rest ih => simp [List.isPrefixOf, ih]

lemma occursL_embed (a pat b : List Char) : occursL pat (a ++ pat ++ b) = true := by
  unfold occursL
  rw [List.any_eq_true]
  refine ⟨pat ++ b, ?_, isPrefixOf_append_self pat b⟩
  rw [List.mem_tails, List.append_assoc]
  exact List.suffix_append a (pat ++ b)

lemma splitOnChar_eq_single (sep : Char) (l : List Char) (h : sep ∉ l) :
    splitOnChar sep l = [l] := by
  induction l with
  | nil => rfl
  | cons c rest ih =>
    have hc : ¬ c = sep := fun he => h (he ▸ List.mem_cons_self c rest)
    have hr : sep ∉ rest := fun hm => h (List.mem_cons_of_mem c hm)
    simp only [splitOnChar, ih hr]
    simp [hc]

lemma splitOnChar_ne_nil (sep : Char) (l : List Char) : splitOnChar sep l ≠ [] := by
  cases l with
  | nil => simp [splitOnChar]
  | cons c rest =>
    simp only [splitOnChar]
    split
    · simp
    · split <;> simp

lemma pyStripL_eq_nil (l : List Char) (h : ∀ c ∈ l, pyWs c = true) :
    pyStripL l = [] := by
  unfold pyStripL
  rw [List.dropWhile_eq_nil_iff.mpr h]
  rfl

lemma durOf_cases (d : List Char) (v : ℚ) (h : durOf d = .ok v) :
    duration_map (toLowerL (pyStripL d)) = some v ∨
    (duration_map (toLowerL (pyStripL d)) = none ∧ pyFloat d = some v) := by
  unfold durOf at h
  split at h
  next hm =>
    injection h with h2
    subst h2
    exact Or.inl hm
  next hm =>
    split at h
    next hf =>
      injection h with h2
      subst h2
      exact Or.inr ⟨hm, hf⟩
    next => exact absurd h (by simp)

lemma parsePD_ql (p d : List Char) (n : MNote) (h : parsePD p d = .ok n) :
    durOf d = .ok n.ql := by
  unfold parsePD at h
  split at h
  next => exact absurd h (by simp)
  next v hd =>
    split at h
    next => exact absurd h (by simp)
    next pit hp =>
      injection h with h2
      subst h2
      exact hd

lemma parsePD_pitch (p d : List Char) (n : MNote) (h : parsePD p d = .ok n) :
    parsePitchName p = .ok n.pitch := by
  unfold parsePD at h
  split at h
  next => exact absurd h (by simp)
  next v hd =>
    split at h
    next => exact absurd h (by simp)
    next pit hp =>
      injection h with h2
      subst h2
      exact hp

lemma parsePitchName_step (l : List Char) (p : MPitch)
    (h : parsePitchName l = .ok p) : p.step ∈ stepLetters := by
  simp only [parsePitchName] at h
  split at h
  next => exact absurd h (by simp)
  next st accChars _ =>
    split at h
    next hin =>
      split at h
      next =>
        injection h with h2
        subst h2
        exact hin
      next =>
        split at h
        next a ha =>
          injection h with h2
          subst h2
          exact hin
        next => exact absurd h (by simp)
    next => exact absurd h (by simp)

lemma parseEntry_step (e : List Char) (n : MNote) (h : parseEntry e = .ok n) :
    n.pitch.step ∈ stepLetters := by
  unfold parseEntry at h
  split at h
  next p d _ => exact parsePitchName_step p n.pitch (parsePD_pitch p d n h)
  next => exact absurd h (by simp)
  next => exact absurd h (by simp)
  next => exact absurd h (by simp)

lemma parseEntries_step (l : List (List Char)) (ns : List MNote)
    (h : parseEntries l = .ok ns) : ∀ n ∈ ns, n.pitch.step ∈ stepLetters := by
  induction l generalizing ns with
  | nil =>
    injection h with h2
    subst h2
    intro n hn
    exact absurd hn (List.not_mem_nil n)
  | cons hd tl ih =>
    simp only [parseEntries] at h
    split at h
    next => exact absurd h (by simp)
    next n0 hpe =>
      split at h
      next => exact absurd h (by simp)
      next ns0 hrest =>
        injection h with h2
        subst h2
        intro n hn
        rcases List.mem_cons.mp hn with rfl | htl
        · exact parseEntry_step hd n hpe
        · exact ih ns0 hrest n htl

lemma parseEntries_error_of_mem (l : List (List Char)) (e : List Char) (err : PyErr)
    (he : e ∈ l) (herr : parseEntry e = .error err) :
    ∃ err2, parseEntries l = .error err2 := by
  induction l with
  | nil => exact absurd he (List.not_mem_nil e)
  | cons hd tl ih =>
    rcases List.mem_cons.mp he with rfl | htl
    · exact ⟨err, by simp only [parseEntries, herr]⟩
    · cases hpe : parseEntry hd with
      | error err3 => exact ⟨err3, by simp only [parseEntries, hpe]⟩
      | ok n =>
        obtain ⟨err2, h2⟩ := ih htl
        exact ⟨err2, by simp only [parseEntries, hpe, h2]⟩

lemma parseEntries_ok_ne_nil (hd : List Char) (tl : List (List Char)) (ns : List MNote)
    (h : parseEntries (hd :: tl) = .ok ns) : ns ≠ [] := by
  simp only [parseEntries] at h
  split at h
  next => exact absurd h (by simp)
  next n0 hpe =>
    split at h
    next => exact absurd h (by simp)
    next ns0 hrest =>
      injection h with h2
      subst h2
      simp

lemma totalNoteQL_cons (ev : MEvent) (rest : List MEvent) :
    totalNoteQL (ev :: rest) = noteQL ev + totalNoteQL rest := by
  simp [totalNoteQL]

lemma totalMissing_cons (env : PlayEnv) (ev : MEvent) (rest : List MEvent) :
    totalMissing env (ev :: rest) = missingOf env ev + totalMissing env rest := by
  simp [totalMissing]

lemma playStep_slept (env : PlayEnv) (hok : ∀ f, env.soundOk f = true)
    (s : PlayState) (ev : MEvent) :
    (playStep env s ev).slept = s.slept + 3/5 * noteQL ev ∧
    (playStep env s ev).missingCount = s.missingCount + missingOf env ev := by
  cases ev with
  | chord ps t => simp [playStep, noteQL, missingOf]
  | note n =>
    cases hs : env.sampleExists (sampleFilename n.pitch) with
    | true =>
      constructor
      · simp [playStep, hs, hok (sampleFilename n.pitch), noteQL]
        ring
      · simp [playStep, hs, hok (sampleFilename n.pitch), missingOf]
    | false =>
      constructor
      · simp [playStep, hs, noteQL]
        ring
      · simp [playStep, hs, missingOf]

lemma play_foldl (env : PlayEnv) (hok : ∀ f, env.soundOk f = true)
    (evs : List MEvent) : ∀ s : PlayState,
    (evs.foldl (playStep env) s).slept = s.slept + 3/5 * totalNoteQL evs ∧
    (evs.foldl (playStep env) s).missingCount = s.missingCount + totalMissing env evs := by
  induction evs with
  | nil =>
    intro s
    simp [totalNoteQL, totalMissing]
  | cons ev rest ih =>
    intro s
    simp only [List.foldl_cons]
    obtain ⟨h1, h2⟩ := ih (playStep env s ev)
    obtain ⟨g1, g2⟩ := playStep_slept env hok s ev
    refine ⟨?_, ?_⟩
    · rw [h1, g1, totalNoteQL_cons]
      ring
    · rw [h2, g2, totalMissing_cons]
      omega

lemma staffTiles_succ (w : Nat) :
    staffTiles (w + 1) = staffTiles w ++ [500 * ((w : Int) + 1)] := by
  simp [staffTiles, List.range_succ]

lemma wrapIfNeeded_inv (s : RState)
    (h1 : s.yOff = 500 * (s.wraps : Int)) (h2 : s.tiles = staffTiles s.wraps) :
    (wrapIfNeeded s).yOff = 500 * ((wrapIfNeeded s).wraps : Int) ∧
    (wrapIfNeeded s).tiles = staffTiles (wrapIfNeeded s).wraps := by
  unfold wrapIfNeeded
  split
  · constructor
    · simp [h1]
      ring
    · simp [h2, h1, staffTiles_succ]
      ring_nf
  · exact ⟨h1, h2⟩

lemma renderStep_inv (lib : String → Bool) (s s2 : RState) (ev : MEvent)
    (h1 : s.yOff = 500 * (s.wraps : Int)) (h2 : s.tiles = staffTiles s.wraps)
    (h : renderStep lib s ev = .ok s2) :
    s2.yOff = 500 * (s2.wraps : Int) ∧ s2.tiles = staffTiles s2.wraps := by
  cases ev with
  | chord ps t =>
    injection h with h3
    subst h3
    exact ⟨h1, h2⟩
  | note n =>
    simp only [renderStep] at h
    split at h
    next => exact absurd h (by simp)
    next sticker hos =>
      injection h with h3
      subst h3
      obtain ⟨g1, g2⟩ := wrapIfNeeded_inv s h1 h2
      exact ⟨g1, g2⟩

lemma renderList_inv (lib : String → Bool) (evs : List MEvent) :
    ∀ s r : RState,
    s.yOff = 500 * (s.wraps : Int) → s.tiles = staffTiles s.wraps →
    renderList lib s evs = .ok r →
    r.yOff = 500 * (r.wraps : Int) ∧ r.tiles = staffTiles r.wraps := by
  induction evs with
  | nil =>
    intro s r h1 h2 h
    injection h with h3
    subst h3
    exact ⟨h1, h2⟩
  | cons ev rest ih =>
    intro s r h1 h2 h
    simp only [renderList] at h
    split at h
    next => exact absurd h (by simp)
    next s2 hstep =>
      obtain ⟨g1, g2⟩ := renderStep_inv lib s s2 ev h1 h2 hstep
      exact ih s2 r g1 g2 h

/-- C1: decode resolves each `Pitch:Duration` token's quarter-length
through the fixed name table {16th:0.25, eighth:0.5, quarter:1.0,
half:2.0, whole:4.0} when the duration token is a known name, and
otherwise by parsing it as a floating-point literal; in particular
decoding "G4:quarter, A4:half" commits exactly the two-note sequence
(G,4,1.0) then (A,4,2.0). -/
theorem C1_decode_duration_table :
    (∀ (e : List Char) (n : MNote), parseEntry e = .ok n →
      ∃ p d, splitOnChar ':' e = [p, d] ∧
        (duration_map (toLowerL (pyStripL d)) = some n.ql ∨
         (duration_map (toLowerL (pyStripL d)) = none ∧ pyFloat d = some n.ql))) ∧
    update_musicxml "G4:quarter, A4:half" =
      .ok [⟨⟨'G', 0, some 4⟩, 1⟩, ⟨⟨'A', 0, some 4⟩, 2⟩] := by
  constructor
  · intro e n h
    unfold parseEntry at h
    split at h
    next p d hpd =>
      exact ⟨p, d, hpd, durOf_cases d n.ql (parsePD_ql p d n h)⟩
    next => exact absurd h (by simp)
    next => exact absurd h (by simp)
    next => exact absurd h (by simp)
  · rfl

/-- Witness for C1: the table lookup at the concrete token
"G4:quarter" with quarter-length 1. -/
theorem C1_decode_duration_table_witness :
    ∃ p d, splitOnChar ':' "G4:quarter".data = [p, d] ∧
      (duration_map (toLowerL (pyStripL d)) = some (1 : ℚ) ∨
       (duration_map (toLowerL (pyStripL d)) = none ∧ pyFloat d = some (1 : ℚ))) :=
  C1_decode_duration_table.1 "G4:quarter".data ⟨⟨'G', 0, some 4⟩, 1⟩ rfl

/-- C2 counterexample: the correction text "A4" has a token lacking a
colon, and decode does fail and return an error string — but that
string is CPython's generic unpacking message, which does not mention
the offending input "A4" anywhere. -/
theorem C2_parse_error_counterexample :
    update_musicxml "A4" = .error (errWrap (.unpackFew 1)) ∧
    occursL "A4".data (errWrap (.unpackFew 1)).data = false := by
  exact ⟨rfl, by decide⟩

/-- C2 (amended): any correction text containing a token that lacks a
colon, has an invalid pitch, or has an unresolvable duration makes the
whole decode fail — nothing is committed and an error string is
returned to the caller instead of an exception; the string embeds the
underlying exception text, which names the offending duration token
when a duration fails to parse as a float, though not when a token
merely lacks a colon. -/
theorem C2_parse_error_amended :
    (∀ s : String, (∃ e ∈ entriesOf s, ∃ err, parseEntry e = .error err) →
      ∃ m : String, update_musicxml s = .error m) ∧
    (∀ (e p d : List Char), splitOnChar ':' e = [p, d] →
      duration_map (toLowerL (pyStripL d)) = none → pyFloat d = none →
      parseEntry e = .error (.floatErr d) ∧
        occursL d (errMsg (.floatErr d)).data = true) := by
  constructor
  · intro s ⟨e, he, err, herr⟩
    obtain ⟨err2, h2⟩ := parseEntries_error_of_mem (entriesOf s) e err he herr
    refine ⟨errWrap err2, ?_⟩
    unfold update_musicxml decodeLoop
    rw [h2]
  · intro e p d hpd hm hf
    constructor
    · have hdur : durOf d = .error (.floatErr d) := by
        unfold durOf
        rw [hm, hf]
      unfold parseEntry
      rw [hpd]
      show parsePD p d = Except.error (PyErr.floatErr d)
      unfold parsePD
      rw [hdur]
    · show occursL d (("could not convert string to float: " ++ quoteCh ++
        String.mk d ++ quoteCh).data) = true
      rw [str_data_append, str_data_append, str_data_append]
      rw [show (String.mk d).data = d from rfl]
      exact occursL_embed _ d _

/-- Witness for C2 (amended): "A4, G4:quarter" contains a colonless
token and decode fails; "G4:notaduration" fails on the duration and the
exception text names the offending token. -/
theorem C2_parse_error_amended_witness :
    (∃ m : String, update_musicxml "A4, G4:quarter" = .error m) ∧
    (parseEntry "G4:notaduration".data = .error (.floatErr "notaduration".data) ∧
      occursL "notaduration".data (errMsg (.floatErr "notaduration".data)).data = true) :=
  ⟨C2_parse_error_amended.1 "A4, G4:quarter"
      ⟨"A4".data, by decide, .unpackFew 1, by decide⟩,
    C2_parse_error_amended.2 "G4:notaduration".data "G4".data "notaduration".data
      (by decide) (by decide) (by decide)⟩

/-- C9 counterexample: decode performs no positivity check on numeric
durations — "C4:0" parses the float 0.0 straight into the sequence,
producing a zero-duration note. -/
theorem C9_duration_counterexample :
    decodeLoop "C4:0" = .ok [⟨⟨'C', 0, some 4⟩, 0⟩] ∧
    ¬ (0 : ℚ) < (⟨⟨'C', 0, some 4⟩, 0⟩ : MNote).ql := by
  constructor
  · rfl
  · decide

/-- C9 (amended): every note produced by the decode loop has its pitch
letter in the fixed 7-letter set A..G (the pitch-name parser admits
nothing else); durations, however, are not checked for positivity. -/
theorem C9_pitch_letter_amended :
    ∀ (s : String) (ns : List MNote), decodeLoop s = .ok ns →
      ∀ n ∈ ns, n.pitch.step ∈ stepLetters := by
  intro s ns h
  exact parseEntries_step (entriesOf s) ns h

/-- Witness for C9 (amended): the note decoded from "G4:quarter" has
step letter G, a member of the 7-letter set. -/
theorem C9_pitch_letter_amended_witness :
    (⟨⟨'G', 0, some 4⟩, 1⟩ : MNote).pitch.step ∈ stepLetters :=
  C9_pitch_letter_amended "G4:quarter" [⟨⟨'G', 0, some 4⟩, 1⟩] (by rfl) _ (by decide)

/-- C10: decoding the empty correction string or any whitespace-only
string fails with the parse-error string (so nothing is written), and
no successful decode ever commits an empty sequence — the update
interface requires at least one `Pitch:Duration` token. -/
theorem C10_empty_decode_fails :
    (∀ s : String, (∀ c ∈ s.data, pyWs c = true) →
      update_musicxml s = .error (errWrap (.unpackFew 1))) ∧
    (∀ (s : String) (ns : List MNote), update_musicxml s = .ok ns → ns ≠ []) := by
  constructor
  · intro s h
    have hnc : ',' ∉ s.data := fun hc => absurd (h ',' hc) (by decide)
    have hsplit : splitOnChar ',' s.data = [s.data] :=
      splitOnChar_eq_single ',' s.data hnc
    have hstrip : pyStripL s.data = [] := pyStripL_eq_nil s.data h
    unfold update_musicxml decodeLoop entriesOf
    rw [hsplit, List.map_cons, List.map_nil, hstrip]
    rfl
  · intro s ns h
    unfold update_musicxml at h
    split at h
    next ns2 hd =>
      injection h with h2
      subst h2
      unfold decodeLoop at hd
      have hne : entriesOf s ≠ [] := by
        unfold entriesOf
        intro hmap
        exact splitOnChar_ne_nil ',' s.data (List.map_eq_nil_iff.mp hmap)
      rcases he : entriesOf s with _ | ⟨e0, rest⟩
      · exact absurd he hne
      · rw [he] at hd
        exact parseEntries_ok_ne_nil e0 rest ns2 hd
    next => exact absurd h (by simp)

/-- Witness for C10: the one-space string fails with the unpack
message, and the successful decode of "G4:1.0" commits a nonempty
sequence. -/
theorem C10_empty_decode_fails_witness :
    update_musicxml " " = .error (errWrap (.unpackFew 1)) ∧
    [(⟨⟨'G', 0, some 4⟩, 1⟩ : MNote)] ≠ [] :=
  ⟨C10_empty_decode_fails.1 " " (by decide),
    C10_empty_decode_fails.2 "G4:1.0" [⟨⟨'G', 0, some 4⟩, 1⟩] (by rfl)⟩

/-- C3: playback walks the notes in order; every note whose sample is
missing still blocks for `quarterLength × 0.6` seconds and appends
exactly one missing-asset warning, so (when present samples play
without raising) the total blocked time is `0.6 ×` the sum of all
quarter-lengths and the warning count equals the number of
missing-asset notes; concretely, one present note (A4, ql 1) plus one
missing note (B4, ql 2) blocks 1.8 s in total and the returned message
contains exactly one missing-asset warning. -/
theorem C3_missing_asset_timing :
    (∀ (env : PlayEnv) (path : String) (evs : List MEvent),
      env.fileExists = true → (∀ f, env.soundOk f = true) →
      (play_violin_mp3_library env path evs).slept = 3/5 * totalNoteQL evs ∧
      (play_violin_mp3_library env path evs).missingCount = totalMissing env evs) ∧
    ((play_violin_mp3_library playEnvEx "score.musicxml" playEvsEx).slept = 9/5 ∧
     totalNoteQL playEvsEx = 3 ∧
     (play_violin_mp3_library playEnvEx "score.musicxml" playEvsEx).missingCount = 1 ∧
     countOccL "⚠️ Missing from library:".data
       (play_violin_mp3_library playEnvEx "score.musicxml" playEvsEx).message.data = 1) := by
  constructor
  · intro env path evs h1 h2
    unfold play_violin_mp3_library
    rw [h1]
    simp only [if_true]
    obtain ⟨g1, g2⟩ := play_foldl env h2 evs
      ⟨0, 0, "🎻 Ready! Accessing library: chromatic_samples_library..."⟩
    constructor
    · rw [g1]
      ring
    · rw [g2]
      simp
  · refine ⟨by decide, by decide, by decide, by decide⟩

/-- Witness for C3: the general timing/warning law applied to the
concrete present+missing environment. -/
theorem C3_missing_asset_timing_witness :
    (play_violin_mp3_library playEnvEx "score.musicxml" playEvsEx).slept =
      3/5 * totalNoteQL playEvsEx ∧
    (play_violin_mp3_library playEnvEx "score.musicxml" playEvsEx).missingCount =
      totalMissing playEnvEx playEvsEx :=
  C3_missing_asset_timing.1 playEnvEx "score.musicxml" playEvsEx rfl (fun _ => rfl)

/-- C4 counterexample: rendering a whole note then a quarter note
accumulates 5.0 quarter-units, which crosses the 4.0 boundary — the
claim demands one wrap — yet the renderer wraps zero times, because
the `accumulator > 4.0` check only runs before a subsequent note. -/
theorem C4_wrap_counterexample :
    Except.map RState.wraps (generate_visual_sheet libAll wrapEvsEx) = .ok 0 ∧
    specWrapCount (totalNoteQL wrapEvsEx) = 1 := by
  constructor
  · decide
  · decide

/-- C4 (amended): the renderer wraps before a note exactly when the
accumulated duration strictly exceeds 4.0 — resetting the cursor to
the line start, advancing the vertical offset by the 500-pixel line
spacing, discarding the accumulator, and compositing a fresh staff
tile — and consequently after any successful render the vertical
offset is 500 × the number of wraps and the staff tiles sit exactly at
offsets 0, 500, …, 500 × wraps. -/
theorem C4_wrap_amended :
    (∀ (lib : String → Bool) (s : RState) (n : SNote) (r : RState),
      renderStep lib s (.note n) = .ok r →
      ((4 < s.acc → r.wraps = s.wraps + 1 ∧ r.yOff = s.yOff + 500 ∧ r.acc = n.ql ∧
          r.x = 100 + n.ql * 300 ∧ r.tiles = s.tiles ++ [s.yOff + 500]) ∧
       (s.acc ≤ 4 → r.wraps = s.wraps ∧ r.yOff = s.yOff ∧ r.acc = s.acc + n.ql ∧
          r.x = s.x + n.ql * 300 ∧ r.tiles = s.tiles))) ∧
    (∀ (lib : String → Bool) (evs : List MEvent) (r : RState),
      generate_visual_sheet lib evs = .ok r →
      r.yOff = 500 * (r.wraps : Int) ∧ r.tiles = staffTiles r.wraps) := by
  constructor
  · intro lib s n r h
    simp only [renderStep] at h
    split at h
    next => exact absurd h (by simp)
    next sticker hos =>
      injection h with h2
      subst h2
      constructor
      · intro h4
        simp [wrapIfNeeded, h4]
      · intro h4
        have h5 : ¬ 4 < s.acc := not_lt.mpr h4
        simp [wrapIfNeeded, h5]
  · intro lib evs r h
    unfold generate_visual_sheet at h
    split at h
    · exact renderList_inv lib evs rInit r (by simp [rInit]) (by rfl) h
    · exact absurd h (by simp)

/-- Witness for C4 (amended): a concrete wrap (accumulator 6 > 4) with
its cursor/offset/tile effects, and the invariant evaluated on the
concrete two-note render. -/
theorem C4_wrap_amended_witness :
    (wrapStepEx.wraps = wrapStartEx.wraps + 1 ∧
     wrapStepEx.yOff = wrapStartEx.yOff + 500 ∧
     wrapStepEx.acc = (1 : ℚ) ∧
     wrapStepEx.x = 100 + (1 : ℚ) * 300 ∧
     wrapStepEx.tiles = wrapStartEx.tiles ++ [wrapStartEx.yOff + 500]) ∧
    (wrapStateEx.yOff = 500 * (wrapStateEx.wraps : Int) ∧
     wrapStateEx.tiles = staffTiles wrapStateEx.wraps) :=
  ⟨(C4_wrap_amended.1 libAll wrapStartEx ⟨⟨'C', 0, some 4⟩, "quarter", 1⟩ wrapStepEx
      (by decide)).1 (by norm_num [wrapStartEx]),
   C4_wrap_amended.2 libAll wrapEvsEx wrapStateEx (by decide)⟩

/-- C5: the glyph asset is keyed by the duration-type name; the
reversed stem variant `{durationName}_rev.png` is the one asked for
exactly when the diatonic step number is ≥ 35, it is used whenever it
exists, and when the asked-for file is absent the renderer opens the
plain `{durationName}.png` instead. -/
theorem C5_glyph_variant :
    ∀ (lib : String → Bool) (n : SNote),
      ((attemptedSticker n = n.durType ++ "_rev.png") ↔ 35 ≤ dnn n.pitch) ∧
      (lib (attemptedSticker n) = true →
        openSticker lib n = .ok (attemptedSticker n)) ∧
      (lib (attemptedSticker n) = false → lib (n.durType ++ ".png") = true →
        openSticker lib n = .ok (n.durType ++ ".png")) := by
  intro lib n
  refine ⟨?_, ?_, ?_⟩
  · constructor
    · intro he
      by_contra hlt
      rw [attemptedSticker, if_neg hlt] at he
      have hlen := congrArg String.length he
      rw [String.length_append, String.length_append] at hlen
      have h4 : ".png".length = 4 := rfl
      have h8 : "_rev.png".length = 8 := rfl
      omega
    · intro h35
      rw [attemptedSticker, if_pos h35]
  · intro hl
    unfold openSticker
    rw [hl]
    simp
  · intro hl hp
    unfold openSticker
    rw [hl, hp]
    simp

/-- Witness for C5: B4 (diatonic step exactly 35) asks for the
reversed quarter glyph, and with only the plain glyph present the
renderer falls back to it. -/
theorem C5_glyph_variant_witness :
    attemptedSticker stickerNoteEx = stickerNoteEx.durType ++ "_rev.png" ∧
    openSticker stickerLibEx stickerNoteEx = .ok (stickerNoteEx.durType ++ ".png") :=
  ⟨(C5_glyph_variant stickerLibEx stickerNoteEx).1.mpr (by decide),
   (C5_glyph_variant stickerLibEx stickerNoteEx).2.2 (by decide) (by decide)⟩

/-- C6: the claim (and the source comment "Convert G#4 to Ab4") say a
sharp pitch is respelled as its flat equivalent so that no
sharp-containing filename is ever looked up; but `getLowerEnharmonic`
respells one letter DOWN, so G#4 yields the lookup "F###4.mp3" — a
triple-sharp filename, not "Ab4.mp3" — while flats and naturals map as
documented. -/
theorem C6_sharp_lookup_code_bug :
    sampleFilename ⟨'G', 1, some 4⟩ = "F###4.mp3" ∧
    occursL "#".data "F###4.mp3".data = true ∧
    sampleFilename ⟨'G', 1, some 4⟩ ≠ "Ab4.mp3" ∧
    sampleFilename ⟨'A', -1, some 4⟩ = "Ab4.mp3" ∧
    sampleFilename ⟨'A', 0, some 4⟩ = "A4.mp3" := by
  exact ⟨by rfl, by decide, by decide, by rfl, by rfl⟩

/-- C7 counterexample: when the score document is missing, playback
initializes the audio mixer and then returns early without releasing
it. -/
theorem C7_release_counterexample :
    (play_violin_mp3_library ⟨false, fun _ => false, fun _ => true, fun _ => ""⟩
        "missing.musicxml" []).mixerInit = true ∧
    (play_violin_mp3_library ⟨false, fun _ => false, fun _ => true, fun _ => ""⟩
        "missing.musicxml" []).mixerQuit = false := by
  exact ⟨rfl, rfl⟩

/-- C7 (amended): the mixer is initialized at the start of every
playback session, and it is released before returning exactly when the
input document exists (per-note failures cannot prevent the release;
the missing-document early return skips it). -/
theorem C7_release_amended :
    ∀ (env : PlayEnv) (path : String) (evs : List MEvent),
      (play_violin_mp3_library env path evs).mixerInit = true ∧
      (play_violin_mp3_library env path evs).mixerQuit = env.fileExists := by
  intro env path evs
  unfold play_violin_mp3_library
  cases h : env.fileExists <;> simp [h]

/-- C8: the summary is meant to emit chords as a pitch-set token with
the duration name, but the chord branch evaluates
`n.pitches + ":" + n.duration.type` — adding a string to the pitch
tuple — so summarizing any chord-containing document raises TypeError
instead of returning text; plain-note documents summarize fine. -/
theorem C8_chord_summary_code_bug :
    get_notes_from_xml "doc.musicxml" true chordDocEx =
      .error "TypeError: can only concatenate tuple (not \x22str\x22) to tuple" ∧
    get_notes_from_xml "doc.musicxml" true
        [.note ⟨⟨'G', 0, some 4⟩, "quarter", 1⟩, .note ⟨⟨'A', 0, some 4⟩, "half", 2⟩] =
      .ok ("🎉 Found the payload: doc.musicxml" ++
        "\n--- 🎼 NOTES DETECTED ---" ++ ":" ++ "G4:quarter, A4:half") := by
  exact ⟨by rfl, by rfl⟩
